import Mathlib

/-!
# NagrikMitra image classification: a verification development

Shallow embedding of the two classification entry points of the frontend,

* `frontend/src/ai/classifyImage.js` (`classifyImage`, `getDepartmentDisplayName`),
* `frontend/src/ai/mlClassifier.js` (`loadModel`, `classifyImageML`, `unloadModel`),

followed by theorems about them.

Conventions of the embedding.

* A promise returned by an `async` function is an `Except Thrown α`:
  `.ok v` is a promise fulfilled with `v`, `.error e` a promise rejected with `e`.
  A synchronous `throw` inside an `async` body rejects the promise, so it is an
  `.error` as well.
* Collaborators that live outside the repository (the network, the auth header
  provider, TensorFlow.js, the browser image decoder) are fields of an environment
  record, each giving the outcome of the corresponding call.
* The module level variable `model` of `mlClassifier.js` is passed explicitly as
  a `ModuleState`.  One call of `classifyImageML` or `loadModel` is a function of
  that state; runs in which calls of `loadModel` overlap are followed event by
  event on a `LoaderState`.
* A JavaScript number is a `JSNumber`: a finite value (its exact rational value),
  one of the two infinities, or NaN.  Only comparisons of numbers occur in the
  source, and these are exact, so no rounding is modelled.
-/

namespace NagrikMitra

/-! ## JavaScript values -/

/-- JavaScript numbers: the exact value of a finite double, the infinities, NaN. -/
inductive JSNumber where
  | nan
  | negInf
  | finite (q : ℚ)
  | posInf
  deriving DecidableEq

namespace JSNumber

/-- The relational operator `a < b` on numbers (false when either side is NaN). -/
def lt : JSNumber → JSNumber → Bool
  | nan, _ => false
  | _, nan => false
  | negInf, negInf => false
  | negInf, _ => true
  | _, negInf => false
  | posInf, _ => false
  | finite _, posInf => true
  | finite a, finite b => decide (a < b)

/-- The relational operator `a >= b` on numbers (false when either side is NaN). -/
def ge : JSNumber → JSNumber → Bool
  | nan, _ => false
  | _, nan => false
  | a, b => !(lt a b)

/-- Strict equality `a === b` on numbers: NaN is different from itself. -/
def strictEq : JSNumber → JSNumber → Bool
  | nan, _ => false
  | _, nan => false
  | negInf, negInf => true
  | posInf, posInf => true
  | finite a, finite b => decide (a = b)
  | _, _ => false

/-- The binary step of `Math.max`: NaN is contagious, otherwise the larger one. -/
def max2 (a b : JSNumber) : JSNumber :=
  match a, b with
  | nan, _ => nan
  | _, nan => nan
  | a, b => if lt a b then b else a

/-- Whether the number is NaN. -/
def isNaN : JSNumber → Bool
  | nan => true
  | _ => false

end JSNumber

/-- JavaScript values as they occur here: what `JSON.parse` can produce
(`null`, booleans, numbers, strings, arrays, and objects, given by their own
properties, each key once), `undefined` (the result of reading an absent
property), and built in objects reached through the prototype chain of a plain
object (named, not further described). -/
inductive JSValue where
  | undefined
  | null
  | bool (b : Bool)
  | number (n : JSNumber)
  | string (s : String)
  | array (items : List JSValue)
  | object (fields : List (String × JSValue))
  | builtin (name : String)

/-- A thrown value (an exception, or the reason of a rejected promise). -/
structure Thrown where
  description : String
  deriving DecidableEq

/-- The `TypeError` raised by a property read on `undefined` or `null`, or by
calling something that is not a function. -/
def typeError : Thrown := ⟨"TypeError"⟩

/-- The properties every plain object inherits from `Object.prototype`. -/
def objectPrototype : List (String × JSValue) :=
  [ ("constructor", .builtin "Object"),
    ("__defineGetter__", .builtin "Object.prototype.__defineGetter__"),
    ("__defineSetter__", .builtin "Object.prototype.__defineSetter__"),
    ("hasOwnProperty", .builtin "Object.prototype.hasOwnProperty"),
    ("__lookupGetter__", .builtin "Object.prototype.__lookupGetter__"),
    ("__lookupSetter__", .builtin "Object.prototype.__lookupSetter__"),
    ("isPrototypeOf", .builtin "Object.prototype.isPrototypeOf"),
    ("propertyIsEnumerable", .builtin "Object.prototype.propertyIsEnumerable"),
    ("toString", .builtin "Object.prototype.toString"),
    ("valueOf", .builtin "Object.prototype.valueOf"),
    ("__proto__", .builtin "Object.prototype"),
    ("toLocaleString", .builtin "Object.prototype.toLocaleString") ]

/-- Property read `obj[key]` on a plain object with the given own properties:
the own property if there is one, else the one inherited from
`Object.prototype`, else `undefined`. -/
def plainObjectGet (fields : List (String × JSValue)) (key : String) : JSValue :=
  match fields.lookup key with
  | some v => v
  | none =>
    match objectPrototype.lookup key with
    | some v => v
    | none => .undefined

/-- Property read `v.key` for the keys this program reads from a parsed response
(`department`, `confidence`, `all_probabilities`): a `TypeError` on `undefined`
and `null`; the plain object lookup on an object; `undefined` on every other
value, since no built in prototype defines one of these keys. -/
def getProp (v : JSValue) (key : String) : Except Thrown JSValue :=
  match v with
  | .undefined => .error typeError
  | .null => .error typeError
  | .object fields => .ok (plainObjectGet fields key)
  | _ => .ok .undefined

/-- Truthiness (`ToBoolean`): falsy are `undefined`, `null`, `false`, zero, NaN
and the empty string. -/
def truthy : JSValue → Bool
  | .undefined => false
  | .null => false
  | .bool b => b
  | .number .nan => false
  | .number (.finite q) => decide (q ≠ 0)
  | .number _ => true
  | .string s => decide (s ≠ "")
  | _ => true

/-- The operator `a || b`. -/
def jsOr (a b : JSValue) : JSValue := if truthy a then a else b

/-- The conversion `ToNumber`.  On `undefined`, `null`, booleans and numbers it
is fixed by the language; on strings, arrays and objects it goes through the
engine's conversion to a primitive (which throws a `TypeError` on an object
whose `valueOf` and `toString` are both shadowed by values that cannot be
called) and its numeric literal parser, taken together as `coerce`. -/
def toNumber (coerce : JSValue → Except Thrown JSNumber) : JSValue → Except Thrown JSNumber
  | .undefined => .ok .nan
  | .null => .ok (.finite 0)
  | .bool true => .ok (.finite 1)
  | .bool false => .ok (.finite 0)
  | .number n => .ok n
  | v => coerce v

/-- The call `v.toFixed(2)`: defined on numbers (the resulting text is only
logged, so it is not kept), a `TypeError` on every other value. -/
def toFixed2 : JSValue → Except Thrown Unit
  | .number _ => .ok ()
  | _ => .error typeError

/-! ## classifyImage.js -/

/-- HTTP headers, as key and value pairs. -/
abbrev Headers := List (String × String)

/-- The call `Object.assign(target, source)` on header objects: a key of
`target` that `source` has too keeps its place and takes the value of `source`,
and the keys only `source` has are added after those of `target`. -/
def objectAssign (target source : Headers) : Headers :=
  target.map (fun kv =>
      match source.lookup kv.1 with
      | some v => (kv.1, v)
      | none => kv) ++
    source.filter (fun kv => (target.lookup kv.1).isNone)

/-- The request handed to `fetch`. -/
structure Request where
  url : String
  method : String
  headers : Headers
  image_base64 : String

/-- The response object `fetch` resolves with: its `ok` flag and the outcome of
`response.json()`. -/
structure Response where
  ok : Bool
  json : Except Thrown JSValue

/-- What surrounds one call of `classifyImage`. -/
structure RemoteEnv where
  /-- The flag `import.meta.env.DEV`. -/
  dev : Bool
  /-- The helper `getApiUrl` of `../utils/api`. -/
  getApiUrl : String → Except Thrown String
  /-- The network call. -/
  fetch : Request → Except Thrown Response
  /-- The engine's `ToNumber` on strings, arrays and objects. -/
  coerce : JSValue → Except Thrown JSNumber

/-- The constant `CONFIDENCE_THRESHOLD = 0.3` of `classifyImage`: the double
denoted by the literal `0.3`, which is `5404319552844595 / 2 ^ 54`. -/
def REMOTE_CONFIDENCE_THRESHOLD : JSNumber :=
  .finite (5404319552844595 / 18014398509481984)

/-- The sentinel `"Manual"`. -/
def Manual : JSValue := .string "Manual"

/-- Lines 14 to 32 of `classifyImage`: build the headers, add the auth headers
when a provider was passed, and issue the `fetch`.  The argument
`getAuthHeaders` is `none` when the caller passed nothing, `null` or a value
that is not a function, and `some call` with the outcome of calling it
otherwise. -/
def sendRequest (env : RemoteEnv) (imageBase64 : String)
    (getAuthHeaders : Option (Except Thrown Headers)) : Except Thrown Response := do
  let headers : Headers := [("Content-Type", "application/json")]
  let headers ←
    match getAuthHeaders with
    | some call => do
      let authHeaders ← call
      pure (objectAssign headers authHeaders)
    | none => pure headers
  let url ← env.getApiUrl "/ml/predict/"
  env.fetch (Request.mk url "POST" headers imageBase64)

/-- Lines 43 to 64 of `classifyImage`: what is done with the parsed body of a
successful response. -/
def decideRemote (env : RemoteEnv) (result : JSValue) : Except Thrown JSValue := do
  let _ ← (if env.dev then do
    let _ ← getProp result "department"
    let _ ← getProp result "confidence"
    let _ ← getProp result "all_probabilities"
    pure ()
  else pure ())
  let confidence ← getProp result "confidence"
  let confidenceNumber ← toNumber env.coerce confidence
  if confidenceNumber.lt REMOTE_CONFIDENCE_THRESHOLD then do
    let _ ← toFixed2 confidence
    pure Manual
  else do
    let department ← getProp result "department"
    pure (jsOr department Manual)

/-- The body of the `try` block of `classifyImage`. -/
def classifyImageTry (env : RemoteEnv) (imageBase64 : String)
    (getAuthHeaders : Option (Except Thrown Headers)) : Except Thrown JSValue := do
  let response ← sendRequest env imageBase64 getAuthHeaders
  if !response.ok then
    -- the error body is read with a handler that swallows a failed parse, and only logged
    pure Manual
  else do
    let result ← response.json
    decideRemote env result

/-- The function `classifyImage`: the `try` block, with the `catch` clause that
returns `"Manual"`. -/
def classifyImage (env : RemoteEnv) (imageBase64 : String)
    (getAuthHeaders : Option (Except Thrown Headers)) : Except Thrown JSValue :=
  match classifyImageTry env imageBase64 getAuthHeaders with
  | .ok v => .ok v
  | .error _ => .ok Manual

/-- The own properties of the object literal `departmentMap` of
`getDepartmentDisplayName`. -/
def departmentMap : List (String × JSValue) :=
  [ ("Public Works Department", .string "Public Works Department (PWD)"),
    ("Water Board Department", .string "Water Board"),
    ("Sewage and Drainage Department", .string "Sewage & Drainage"),
    ("Sanitation Department", .string "Sanitation"),
    ("Traffic Department", .string "Traffic"),
    ("Manual", .string "Manual Classification") ]

/-- The function `getDepartmentDisplayName`: `departmentMap[department] || department`
on the object literal `departmentMap`. -/
def getDepartmentDisplayName (department : String) : JSValue :=
  jsOr (plainObjectGet departmentMap department) (.string department)

/-! ## mlClassifier.js -/

/-- The array `DEPARTMENTS`. -/
def DEPARTMENTS : List String :=
  [ "Public Works Department",
    "Water Board Department",
    "Sewage and Drainage Department",
    "Sanitation Department",
    "Traffic Department" ]

/-- A loaded TensorFlow.js model (an object, hence truthy). -/
structure ModelHandle where
  id : Nat
  deriving DecidableEq

/-- A tensor held by TensorFlow.js. -/
structure Tensor where
  id : Nat
  deriving DecidableEq

/-- An image file handed in by the caller. -/
structure ImageFile where
  bytes : List Nat
  deriving DecidableEq

/-- The module level state of `mlClassifier.js`: the variable `model`
(`none` is `null`), and, as instrumentation, how many times
`tf.loadLayersModel` has been called. -/
structure ModuleState where
  model : Option ModelHandle
  loadCalls : Nat
  deriving DecidableEq

/-- What surrounds one call of `classifyImageML`. -/
structure LocalEnv where
  /-- The call `tf.loadLayersModel(url)`. -/
  loadLayersModel : String → Except Thrown ModelHandle
  /-- The call `reader.readAsDataURL(imageFile)`: the data URL, or the error event. -/
  readAsDataURL : ImageFile → Except Thrown String
  /-- Decoding the data URL as an image, drawing it on the 224 by 224 canvas
  and turning the canvas into the normalised batch tensor; the error event of
  the image element when the data cannot be decoded. -/
  decodeToTensor : String → Except Thrown Tensor
  /-- The call `model.predict(imageTensor)`. -/
  predict : ModelHandle → Tensor → Except Thrown Tensor
  /-- The call `predictions.data()`: the values of the output tensor. -/
  data : Tensor → Except Thrown (List JSNumber)

/-- The location the model is loaded from. -/
def MODEL_URL : String := "/models/civic_issue_imgmodel.keras/model.json"

/-- The function `loadModel`, given the outcome `load` of `tf.loadLayersModel`
should it be called. -/
def loadModel (load : String → Except Thrown ModelHandle) (st : ModuleState) :
    Except Thrown ModelHandle × ModuleState :=
  match st.model with
  | some m => (.ok m, st)
  | none =>
    match load MODEL_URL with
    | .ok m => (.ok m, ⟨some m, st.loadCalls + 1⟩)
    | .error e => (.error e, ⟨none, st.loadCalls + 1⟩)

/-- The function `unloadModel`. -/
def unloadModel (st : ModuleState) : ModuleState :=
  match st.model with
  | some _ => ⟨none, st.loadCalls⟩
  | none => st

/-- The function `preprocessImage`: the promise is rejected by `reader.onerror`
or by `img.onerror`, and resolved with the tensor otherwise. -/
def preprocessImage (env : LocalEnv) (imageFile : ImageFile) : Except Thrown Tensor := do
  let dataUrl ← env.readAsDataURL imageFile
  env.decodeToTensor dataUrl

/-- The call `Math.max(...xs)`, for an array short enough to be spread into
an argument list (the output of the model has one entry per class). -/
def mathMax (xs : List JSNumber) : JSNumber := xs.foldl JSNumber.max2 .negInf

/-- The search of `indexOf`, the current position being `k`. -/
def indexOfFrom (x : JSNumber) : List JSNumber → Nat → Int
  | [], _ => -1
  | y :: ys, k => if JSNumber.strictEq y x then (k : Int) else indexOfFrom x ys (k + 1)

/-- The call `xs.indexOf(x)` on a typed array: the first position holding a
value strictly equal to `x`, or `-1`. -/
def indexOf (xs : List JSNumber) (x : JSNumber) : Int := indexOfFrom x xs 0

/-- The read `xs[i]` on a typed array (`none` is `undefined`). -/
def typedArrayGet (xs : List JSNumber) (i : Int) : Option JSNumber :=
  if i < 0 then none else xs[i.toNat]?

/-- The read `DEPARTMENTS[i]`. -/
def departmentAt (i : Int) : JSValue :=
  if i < 0 then .undefined
  else
    match DEPARTMENTS[i.toNat]? with
    | some d => .string d
    | none => .undefined

/-- The constant `CONFIDENCE_THRESHOLD = 0.5` of `classifyImageML`. -/
def LOCAL_CONFIDENCE_THRESHOLD : JSNumber := .finite (1 / 2)

/-- Lines 109 to 133 of `classifyImageML`: the decision taken from the values
of the output tensor. -/
def decideLocal (predictionData : List JSNumber) : JSValue :=
  let maxIndex := indexOf predictionData (mathMax predictionData)
  let confidence := typedArrayGet predictionData maxIndex
  let accepted :=
    match confidence with
    | some c => c.ge LOCAL_CONFIDENCE_THRESHOLD
    | none => false  -- undefined >= 0.5
  if accepted then departmentAt maxIndex else Manual

/-- Lines 97 to 100 of `classifyImageML`: load the model unless `model` is set. -/
def ensureModel (env : LocalEnv) (st : ModuleState) : Except Thrown Unit × ModuleState :=
  match st.model with
  | some _ => (.ok (), st)
  | none =>
    match loadModel env.loadLayersModel st with
    | (.ok _, st1) => (.ok (), st1)
    | (.error e, st1) => (.error e, st1)

/-- Lines 102 to 133 of `classifyImageML`, run in the module state `st`. -/
def classifyAfterLoad (env : LocalEnv) (st : ModuleState) (imageFile : ImageFile) :
    Except Thrown JSValue := do
  let imageTensor ← preprocessImage env imageFile
  let predictions ←
    match st.model with
    | some m => env.predict m imageTensor
    | none => .error typeError  -- null.predict
  let predictionData ← env.data predictions
  pure (decideLocal predictionData)

/-- The function `classifyImageML`: the result of the promise and the module
state left behind. -/
def classifyImageML (env : LocalEnv) (st : ModuleState) (imageFile : ImageFile) :
    Except Thrown JSValue × ModuleState :=
  match ensureModel env st with
  | (.error _, st1) => (.ok Manual, st1)
  | (.ok _, st1) =>
    match classifyAfterLoad env st1 imageFile with
    | .ok v => (.ok v, st1)
    | .error _ => (.ok Manual, st1)

/-! ### Overlapping calls of `loadModel`

`loadModel` is an `async` function: a call runs up to `await tf.loadLayersModel(...)`
and is suspended there; the assignment to `model` happens when the promise of the
underlying load settles and the call is resumed.  Other calls may run in between.
The definitions below follow the module variable through such runs. -/

/-- The state of the module while calls of `loadModel` may be suspended: the
variable `model`, the number of calls of `tf.loadLayersModel` made so far, the
number of calls of `loadModel` suspended at their `await`, and the outcomes of
the calls of `loadModel` completed so far, in order of completion. -/
structure LoaderState where
  model : Option ModelHandle
  loadCalls : Nat
  inFlight : Nat
  results : List (Except Thrown ModelHandle)

/-- What can happen next: a caller calls `loadModel()`; the underlying load of a
suspended call settles with `outcome` and that call is resumed; a caller calls
`unloadModel()`. -/
inductive LoaderEvent where
  | call
  | settle (outcome : Except Thrown ModelHandle)
  | unload

/-- Whether the event is a call of `loadModel`. -/
def LoaderEvent.isCall : LoaderEvent → Bool
  | .call => true
  | _ => false

/-- Whether the event is a call of `unloadModel`. -/
def LoaderEvent.isUnload : LoaderEvent → Bool
  | .unload => true
  | _ => false

/-- One event on the module.

* `call`: line 19 returns `model` at once when it is set; otherwise line 23
  calls `tf.loadLayersModel` and the call is suspended.
* `settle`: with no call suspended nothing happens; otherwise a suspended call
  is resumed.  When the load succeeded line 23 assigns `model` and line 25
  returns it; when it failed the `catch` rethrows and `model` is left as it is.
* `unload`: `unloadModel`. -/
def stepLoader (st : LoaderState) : LoaderEvent → LoaderState
  | .call =>
    match st.model with
    | some m => ⟨some m, st.loadCalls, st.inFlight, st.results ++ [.ok m]⟩
    | none => ⟨none, st.loadCalls + 1, st.inFlight + 1, st.results⟩
  | .settle outcome =>
    if st.inFlight = 0 then st
    else
      match outcome with
      | .ok m => ⟨some m, st.loadCalls, st.inFlight - 1, st.results ++ [.ok m]⟩
      | .error e => ⟨st.model, st.loadCalls, st.inFlight - 1, st.results ++ [.error e]⟩
  | .unload =>
    match st.model with
    | some _ => ⟨none, st.loadCalls, st.inFlight, st.results⟩
    | none => st

/-- A run of events, from the state `st`. -/
def runLoader (events : List LoaderEvent) (st : LoaderState) : LoaderState :=
  events.foldl stepLoader st

/-- The state of the module when the page has just been loaded. -/
def freshLoader : LoaderState := ⟨none, 0, 0, []⟩

/-! ## Sample inputs -/

/-- A local environment in which the model loads, the image decodes and the
output tensor holds `output`. -/
def localEnvWithOutput (output : List JSNumber) : LocalEnv :=
  ⟨fun _ => .ok ⟨1⟩, fun _ => .ok "data:image/png;base64,iVBORw0KGgo=", fun _ => .ok ⟨1⟩,
    fun _ _ => .ok ⟨2⟩, fun _ => .ok output⟩

/-- A local environment in which the model loads and the image element raises
its error event: the bytes are not an image. -/
def localEnvUndecodable : LocalEnv :=
  ⟨fun _ => .ok ⟨1⟩, fun _ => .ok "data:application/octet-stream;base64,AAEC",
    fun _ => .error ⟨"error event"⟩, fun _ _ => .ok ⟨2⟩, fun _ => .ok []⟩

/-- A local environment in which the model file cannot be fetched. -/
def localEnvNoModel : LocalEnv :=
  ⟨fun _ => .error ⟨"Request to model.json failed"⟩,
    fun _ => .ok "data:image/png;base64,iVBORw0KGgo=", fun _ => .ok ⟨1⟩, fun _ _ => .ok ⟨2⟩,
    fun _ => .ok []⟩

/-- The module state when the page has just been loaded. -/
def freshState : ModuleState := ⟨none, 0⟩

/-- Some image file. -/
def sampleFile : ImageFile := ⟨[137, 80, 78, 71]⟩

/-- An output vector whose maximum, 0.44, is on "Sanitation Department". -/
def sanitationOutput : List ℚ := [1 / 10, 1 / 5, 4 / 25, 11 / 25, 1 / 10]

/-- An output vector whose maximum, 0.9, is on "Traffic Department". -/
def trafficOutput : List ℚ := [1 / 40, 1 / 40, 1 / 40, 1 / 40, 9 / 10]

/-- A thrown network error. -/
def networkError : Thrown := ⟨"TypeError: Failed to fetch"⟩

/-- A successful response whose body parses to the given value. -/
def okResponse (body : JSValue) : Response := ⟨true, .ok body⟩

/-- An environment whose server answers every request with `response`.  The
coercion of strings and objects to numbers is not exercised by the inputs it
is used with. -/
def serverAnswering (response : Response) : RemoteEnv :=
  ⟨false, fun path => .ok path, fun _ => .ok response, fun _ => .ok .nan⟩

/-- An environment whose `fetch` throws. -/
def serverUnreachable : RemoteEnv :=
  ⟨false, fun path => .ok path, fun _ => .error networkError, fun _ => .ok .nan⟩

/-- The body of the response `department: "Traffic Department", confidence: 0.42`. -/
def trafficBody : JSValue :=
  .object [("department", .string "Traffic Department"),
    ("confidence", .number (.finite (42 / 100)))]

/-- The body of a response naming a department outside the vocabulary. -/
def parksBody : JSValue :=
  .object [("department", .string "Parks Department"),
    ("confidence", .number (.finite (9 / 10)))]

/-- The body of a response whose confidence, 1.5, is outside the unit interval. -/
def overconfidentBody : JSValue :=
  .object [("department", .string "Traffic Department"),
    ("confidence", .number (.finite (3 / 2)))]

/-- The body of a response without a confidence field. -/
def noConfidenceBody : JSValue :=
  .object [("department", .string "Traffic Department")]

/-! ## Conditions used in the statements -/

/-- The ways the remote call fails: obtaining the auth headers throws, the
request (building the address, `fetch`) throws, the response is not a success,
or parsing the body of a successful response throws. -/
inductive RemoteFailed (env : RemoteEnv) (imageBase64 : String)
    (getAuthHeaders : Option (Except Thrown Headers)) : Prop where
  | authThrows (e : Thrown) (h : getAuthHeaders = some (.error e))
  | fetchThrows (e : Thrown) (h : sendRequest env imageBase64 getAuthHeaders = .error e)
  | notOk (r : Response) (h : sendRequest env imageBase64 getAuthHeaders = .ok r)
      (hok : r.ok = false)
  | parseThrows (r : Response) (e : Thrown)
      (h : sendRequest env imageBase64 getAuthHeaders = .ok r) (hjson : r.json = .error e)

/-- The collaborators of `classifyImageML` deliver the output vector
`predictionData` for the image: the model is there (already loaded, or loaded
now), the image decodes, and prediction and read out succeed. -/
def LocalOutputs (env : LocalEnv) (st : ModuleState) (imageFile : ImageFile)
    (predictionData : List JSNumber) : Prop :=
  ∃ (st1 : ModuleState) (m : ModelHandle) (t pr : Tensor),
    ensureModel env st = (.ok (), st1) ∧ st1.model = some m ∧
    preprocessImage env imageFile = .ok t ∧ env.predict m t = .ok pr ∧
    env.data pr = .ok predictionData

/-- The ways the local strategy fails: `loadModel` throws, or the
prediction step (`model.predict`, then reading the output) throws. -/
inductive LocalFailed (env : LocalEnv) (st : ModuleState) (imageFile : ImageFile) : Prop where
  | loadThrows (e : Thrown) (h : (loadModel env.loadLayersModel st).1 = .error e)
  | predictThrows (st1 : ModuleState) (m : ModelHandle) (t : Tensor) (e : Thrown)
      (h1 : ensureModel env st = (.ok (), st1)) (hm : st1.model = some m)
      (ht : preprocessImage env imageFile = .ok t) (hp : env.predict m t = .error e)
  | dataThrows (st1 : ModuleState) (m : ModelHandle) (t pr : Tensor) (e : Thrown)
      (h1 : ensureModel env st = (.ok (), st1)) (hm : st1.model = some m)
      (ht : preprocessImage env imageFile = .ok t) (hp : env.predict m t = .ok pr)
      (hd : env.data pr = .error e)

/-! ## The remote classifier -/

theorem sendRequest_auth_error (env : RemoteEnv) (imageBase64 : String) (e : Thrown) :
    sendRequest env imageBase64 (some (.error e)) = .error e := by
  rfl

theorem classifyImage_of_send_error (env : RemoteEnv) (imageBase64 : String)
    (auth : Option (Except Thrown Headers)) (e : Thrown)
    (h : sendRequest env imageBase64 auth = .error e) :
    classifyImage env imageBase64 auth = .ok Manual := by
  simp [classifyImage, classifyImageTry, h, bind, Except.bind]

theorem classifyImage_of_send_ok (env : RemoteEnv) (imageBase64 : String)
    (auth : Option (Except Thrown Headers)) (r : Response)
    (h : sendRequest env imageBase64 auth = .ok r) :
    classifyImage env imageBase64 auth =
      if r.ok then
        match r.json with
        | .ok result =>
          match decideRemote env result with
          | .ok v => .ok v
          | .error _ => .ok Manual
        | .error _ => .ok Manual
      else .ok Manual := by
  simp only [classifyImage, classifyImageTry, h, bind, Except.bind]
  cases hok : r.ok <;> simp [pure, Except.pure]
  cases hj : r.json <;> simp

theorem decideRemote_object (env : RemoteEnv) (fields : List (String × JSValue)) :
    (match decideRemote env (.object fields) with
      | .ok v => v
      | .error _ => Manual) =
      match toNumber env.coerce (plainObjectGet fields "confidence") with
      | .ok c =>
        if c.lt REMOTE_CONFIDENCE_THRESHOLD then Manual
        else jsOr (plainObjectGet fields "department") Manual
      | .error _ => Manual := by
  simp only [decideRemote, getProp, bind, Except.bind, pure, Except.pure]
  cases toNumber env.coerce (plainObjectGet fields "confidence") with
  | error e => cases env.dev <;> simp
  | ok c =>
    by_cases hlt : c.lt REMOTE_CONFIDENCE_THRESHOLD = true <;>
      cases env.dev <;>
      cases toFixed2 (plainObjectGet fields "confidence") <;> simp [hlt]

theorem classifyImage_of_object (env : RemoteEnv) (imageBase64 : String)
    (auth : Option (Except Thrown Headers)) (r : Response) (fields : List (String × JSValue))
    (h : sendRequest env imageBase64 auth = .ok r) (hok : r.ok = true)
    (hjson : r.json = .ok (.object fields)) :
    classifyImage env imageBase64 auth = .ok
      (match toNumber env.coerce (plainObjectGet fields "confidence") with
      | .ok c =>
        if c.lt REMOTE_CONFIDENCE_THRESHOLD then Manual
        else jsOr (plainObjectGet fields "department") Manual
      | .error _ => Manual) := by
  rw [classifyImage_of_send_ok env imageBase64 auth r h, ← decideRemote_object]
  simp [hok, hjson]
  cases decideRemote env (.object fields) <;> simp

theorem plainObjectGet_of_lookup (fields : List (String × JSValue)) (key : String) (v : JSValue)
    (h : fields.lookup key = some v) : plainObjectGet fields key = v := by
  simp [plainObjectGet, h]

theorem plainObjectGet_confidence_missing (fields : List (String × JSValue))
    (h : fields.lookup "confidence" = none) : plainObjectGet fields "confidence" = .undefined := by
  simp [plainObjectGet, h, objectPrototype, List.lookup]

theorem JSNumber.ge_eq_not_lt (c : JSNumber) (t : ℚ) (hc : c.isNaN = false) :
    c.ge (.finite t) = !(c.lt (.finite t)) := by
  cases c <;> simp_all [JSNumber.ge, JSNumber.lt, JSNumber.isNaN]

theorem jsOr_string (d : String) (hne : d ≠ "") (w : JSValue) : jsOr (.string d) w = .string d := by
  simp [jsOr, truthy, hne]

theorem classifyImage_of_not_ok (env : RemoteEnv) (imageBase64 : String)
    (auth : Option (Except Thrown Headers)) (r : Response)
    (h : sendRequest env imageBase64 auth = .ok r) (hok : r.ok = false) :
    classifyImage env imageBase64 auth = .ok Manual := by
  rw [classifyImage_of_send_ok env imageBase64 _ r h]; simp [hok]

theorem classifyImage_of_remoteFailed (env : RemoteEnv) (imageBase64 : String)
    (auth : Option (Except Thrown Headers)) (h : RemoteFailed env imageBase64 auth) :
    classifyImage env imageBase64 auth = .ok Manual := by
  cases h with
  | authThrows e h =>
    subst h
    exact classifyImage_of_send_error env imageBase64 _ e (sendRequest_auth_error env imageBase64 e)
  | fetchThrows e h => exact classifyImage_of_send_error env imageBase64 _ e h
  | notOk r h hok => exact classifyImage_of_not_ok env imageBase64 _ r h hok
  | parseThrows r e h hjson =>
    rw [classifyImage_of_send_ok env imageBase64 _ r h]; simp [hjson]

/-- C1.  `classifyImage` fails soft: when obtaining the auth headers throws, the
request throws, the response is not a success, or parsing the body throws, the
promise is fulfilled with exactly `"Manual"`; it is not rejected. -/
theorem classifyImage_fails_soft (env : RemoteEnv) (imageBase64 : String)
    (getAuthHeaders : Option (Except Thrown Headers))
    (h : RemoteFailed env imageBase64 getAuthHeaders) :
    classifyImage env imageBase64 getAuthHeaders = .ok Manual :=
  classifyImage_of_remoteFailed env imageBase64 getAuthHeaders h

/-- Witness for C1: with an unreachable server, with a provider of auth headers
that throws, with a 500 response and with a body that does not parse, the
result is `"Manual"`. -/
theorem classifyImage_fails_soft_witness :
    classifyImage serverUnreachable "aGVsbG8=" none = .ok Manual ∧
    classifyImage (serverAnswering (okResponse trafficBody)) "aGVsbG8="
      (some (.error ⟨"no session"⟩)) = .ok Manual ∧
    classifyImage (serverAnswering ⟨false, .ok trafficBody⟩) "aGVsbG8=" none = .ok Manual ∧
    classifyImage (serverAnswering ⟨true, .error ⟨"SyntaxError"⟩⟩) "aGVsbG8=" none = .ok Manual :=
  ⟨classifyImage_fails_soft _ _ _ (.fetchThrows networkError rfl),
   classifyImage_fails_soft _ _ _ (.authThrows ⟨"no session"⟩ rfl),
   classifyImage_fails_soft _ _ _ (.notOk ⟨false, .ok trafficBody⟩ rfl rfl),
   classifyImage_fails_soft _ _ _ (.parseThrows ⟨true, .error ⟨"SyntaxError"⟩⟩ ⟨"SyntaxError"⟩ rfl rfl)⟩

/-- C2.  Remote confidence policy: for a successful response whose body carries
a non-empty department string `d` and a number `c` as confidence (a number read
from JSON is never NaN), `classifyImage` returns `d` when `c >= 0.3` and
`"Manual"` otherwise; `c = 0.3` is accepted; and, `d` not being the text
`"Manual"` itself, `d` is returned if and only if `c >= 0.3`. -/
theorem classifyImage_confidence_policy (env : RemoteEnv) (imageBase64 : String)
    (getAuthHeaders : Option (Except Thrown Headers)) (r : Response)
    (fields : List (String × JSValue)) (d : String) (c : JSNumber)
    (h : sendRequest env imageBase64 getAuthHeaders = .ok r) (hok : r.ok = true)
    (hjson : r.json = .ok (.object fields))
    (hd : fields.lookup "department" = some (.string d)) (hne : d ≠ "")
    (hc : fields.lookup "confidence" = some (.number c)) (hnum : c.isNaN = false) :
    classifyImage env imageBase64 getAuthHeaders =
        .ok (if c.ge REMOTE_CONFIDENCE_THRESHOLD then .string d else Manual) ∧
      (c = REMOTE_CONFIDENCE_THRESHOLD →
        classifyImage env imageBase64 getAuthHeaders = .ok (.string d)) ∧
      (d ≠ "Manual" →
        (classifyImage env imageBase64 getAuthHeaders = .ok (.string d) ↔
          c.ge REMOTE_CONFIDENCE_THRESHOLD = true)) := by
  have key : classifyImage env imageBase64 getAuthHeaders =
      .ok (if c.ge REMOTE_CONFIDENCE_THRESHOLD then .string d else Manual) := by
    rw [classifyImage_of_object env imageBase64 getAuthHeaders r fields h hok hjson,
      plainObjectGet_of_lookup fields _ _ hc, plainObjectGet_of_lookup fields _ _ hd,
      jsOr_string d hne]
    simp only [toNumber, REMOTE_CONFIDENCE_THRESHOLD, JSNumber.ge_eq_not_lt c _ hnum]
    by_cases hlt : c.lt (.finite (5404319552844595 / 18014398509481984)) = true <;> simp [hlt]
  refine ⟨key, ?_, ?_⟩
  · intro hc3
    rw [key, hc3]
    simp [REMOTE_CONFIDENCE_THRESHOLD, JSNumber.ge, JSNumber.lt]
  · intro hdm
    rw [key]
    cases c.ge REMOTE_CONFIDENCE_THRESHOLD <;> simp [Manual, hdm, Ne.symm hdm]

/-- Witness for C2: the response `department: "Traffic Department",
confidence: 0.42` yields `"Traffic Department"`. -/
theorem classifyImage_confidence_policy_witness :
    classifyImage (serverAnswering (okResponse trafficBody)) "aGVsbG8=" none =
      .ok (.string "Traffic Department") := by
  have h := (classifyImage_confidence_policy (serverAnswering (okResponse trafficBody))
    "aGVsbG8=" none (okResponse trafficBody) _ "Traffic Department" (.finite (42 / 100))
    rfl rfl rfl rfl (by decide) rfl rfl).1
  rw [h]
  simp only [REMOTE_CONFIDENCE_THRESHOLD, JSNumber.ge, JSNumber.lt]
  norm_num

theorem classifyImage_of_not_object (env : RemoteEnv) (imageBase64 : String)
    (auth : Option (Except Thrown Headers)) (r : Response) (result : JSValue)
    (h : sendRequest env imageBase64 auth = .ok r) (hok : r.ok = true)
    (hjson : r.json = .ok result) (hobj : ∀ fields, result ≠ .object fields) :
    classifyImage env imageBase64 auth = .ok Manual := by
  rw [classifyImage_of_send_ok env imageBase64 auth r h]
  simp only [hok, hjson, if_true]
  cases result with
  | object fields => exact absurd rfl (hobj fields)
  | undefined =>
    cases hdev : env.dev <;>
      simp [decideRemote, getProp, bind, Except.bind, hdev, pure, Except.pure]
  | null =>
    cases hdev : env.dev <;>
      simp [decideRemote, getProp, bind, Except.bind, hdev, pure, Except.pure]
  | _ =>
    cases hdev : env.dev <;>
      simp [decideRemote, getProp, bind, Except.bind, hdev, toNumber, JSNumber.lt, pure,
        Except.pure, jsOr, truthy]

/-- Counterexample to C6: the successful response `department: "Parks Department",
confidence: 0.9` names no department of the vocabulary, and `classifyImage`
returns `"Parks Department"`, not `"Manual"`. -/
theorem classifyImage_propagates_unknown_label :
    "Parks Department" ∉ DEPARTMENTS ∧
    classifyImage (serverAnswering (okResponse parksBody)) "aGVsbG8=" none =
      .ok (.string "Parks Department") ∧
    classifyImage (serverAnswering (okResponse parksBody)) "aGVsbG8=" none ≠ .ok Manual := by
  have h : classifyImage (serverAnswering (okResponse parksBody)) "aGVsbG8=" none =
      .ok (.string "Parks Department") := by
    rw [classifyImage_of_object (serverAnswering (okResponse parksBody)) "aGVsbG8=" none
      (okResponse parksBody) _ rfl rfl rfl]
    simp only [plainObjectGet, List.lookup, toNumber, REMOTE_CONFIDENCE_THRESHOLD, JSNumber.lt]
    simp [jsOr, truthy]
    norm_num
  refine ⟨by decide, h, ?_⟩
  rw [h]
  simp [Manual]

/-- C6, amended.  No vocabulary check is applied to the remote label: for a
successful response whose department is a non-empty string `d`, in the
vocabulary or not, and whose confidence is a number that is not below 0.3,
`classifyImage` returns `d` unchanged; and every value `classifyImage` returns
is `"Manual"` or the `department` value of the parsed response. -/
theorem classifyImage_returns_label_or_manual (env : RemoteEnv) (imageBase64 : String)
    (getAuthHeaders : Option (Except Thrown Headers)) :
    (∀ (r : Response) (fields : List (String × JSValue)) (d : String) (c : JSNumber),
      sendRequest env imageBase64 getAuthHeaders = .ok r → r.ok = true →
      r.json = .ok (.object fields) →
      fields.lookup "department" = some (.string d) → d ≠ "" →
      fields.lookup "confidence" = some (.number c) →
      c.lt REMOTE_CONFIDENCE_THRESHOLD = false →
      classifyImage env imageBase64 getAuthHeaders = .ok (.string d)) ∧
    (classifyImage env imageBase64 getAuthHeaders = .ok Manual ∨
      ∃ (r : Response) (result v : JSValue),
        sendRequest env imageBase64 getAuthHeaders = .ok r ∧ r.ok = true ∧
        r.json = .ok result ∧ getProp result "department" = .ok v ∧
        classifyImage env imageBase64 getAuthHeaders = .ok v) := by
  constructor
  · intro r fields d c h hok hjson hd hne hc hlt
    rw [classifyImage_of_object env imageBase64 getAuthHeaders r fields h hok hjson,
      plainObjectGet_of_lookup fields _ _ hc, plainObjectGet_of_lookup fields _ _ hd,
      jsOr_string d hne]
    simp [toNumber, hlt]
  · cases h : sendRequest env imageBase64 getAuthHeaders with
    | error e => exact Or.inl (classifyImage_of_send_error env imageBase64 _ e h)
    | ok r =>
      cases hok : r.ok with
      | false => exact Or.inl (classifyImage_of_not_ok env imageBase64 _ r h hok)
      | true =>
        cases hjson : r.json with
        | error e =>
          left
          rw [classifyImage_of_send_ok env imageBase64 _ r h]; simp [hjson]
        | ok result =>
          by_cases hobj : ∃ fields, result = .object fields
          · obtain ⟨fields, rfl⟩ := hobj
            have hcl := classifyImage_of_object env imageBase64 getAuthHeaders r fields h hok hjson
            cases hnum : toNumber env.coerce (plainObjectGet fields "confidence") with
            | error e => left; rw [hcl, hnum]
            | ok c =>
              by_cases hlt : c.lt REMOTE_CONFIDENCE_THRESHOLD = true
              · left; rw [hcl, hnum]; simp [hlt]
              · by_cases ht : truthy (plainObjectGet fields "department") = true
                · right
                  refine ⟨r, .object fields, plainObjectGet fields "department", rfl, hok,
                    hjson, rfl, ?_⟩
                  rw [hcl, hnum]; simp [hlt, jsOr, ht]
                · left; rw [hcl, hnum]; simp [hlt, jsOr, ht]
          · left
            exact classifyImage_of_not_object env imageBase64 _ r result h hok hjson
              (fun fields hf => hobj ⟨fields, hf⟩)

/-- Instance of the amended C6 at the response `department: "Parks Department",
confidence: 0.9`. -/
theorem classifyImage_returns_label_or_manual_witness :
    classifyImage (serverAnswering (okResponse parksBody)) "aGVsbG8=" none =
      .ok (.string "Parks Department") :=
  (classifyImage_returns_label_or_manual (serverAnswering (okResponse parksBody))
    "aGVsbG8=" none).1 (okResponse parksBody) _ "Parks Department" (.finite (9 / 10))
    rfl rfl rfl rfl (by decide) rfl
    (by simp only [REMOTE_CONFIDENCE_THRESHOLD, JSNumber.lt]; norm_num)

/-- Counterexample to C7: the successful responses `department: "Traffic Department",
confidence: 1.5` and `department: "Traffic Department"` (no confidence) both
make `classifyImage` return `"Traffic Department"`, not `"Manual"`. -/
theorem classifyImage_accepts_invalid_confidence :
    classifyImage (serverAnswering (okResponse overconfidentBody)) "aGVsbG8=" none =
      .ok (.string "Traffic Department") ∧
    classifyImage (serverAnswering (okResponse noConfidenceBody)) "aGVsbG8=" none =
      .ok (.string "Traffic Department") ∧
    (Except.ok (.string "Traffic Department") : Except Thrown JSValue) ≠ .ok Manual := by
  refine ⟨?_, ?_, by simp [Manual]⟩
  · rw [classifyImage_of_object (serverAnswering (okResponse overconfidentBody)) "aGVsbG8=" none
      (okResponse overconfidentBody) _ rfl rfl rfl]
    simp only [plainObjectGet, List.lookup, toNumber, REMOTE_CONFIDENCE_THRESHOLD, JSNumber.lt]
    simp [jsOr, truthy]
    norm_num
  · rw [classifyImage_of_object (serverAnswering (okResponse noConfidenceBody)) "aGVsbG8=" none
      (okResponse noConfidenceBody) _ rfl rfl rfl]
    simp [plainObjectGet, List.lookup, objectPrototype, toNumber, JSNumber.lt, jsOr, truthy]

/-- C7, amended.  The confidence of a successful response is only compared with
0.3, never validated: when the confidence field is missing, or is a number
above 1, `classifyImage` returns the response's department if that is truthy
(and `"Manual"` if not); when it is a number below 0 it returns `"Manual"`. -/
theorem classifyImage_unvalidated_confidence (env : RemoteEnv) (imageBase64 : String)
    (getAuthHeaders : Option (Except Thrown Headers)) (r : Response)
    (fields : List (String × JSValue))
    (h : sendRequest env imageBase64 getAuthHeaders = .ok r) (hok : r.ok = true)
    (hjson : r.json = .ok (.object fields)) :
    (fields.lookup "confidence" = none →
      classifyImage env imageBase64 getAuthHeaders =
        .ok (jsOr (plainObjectGet fields "department") Manual)) ∧
    (∀ q : ℚ, fields.lookup "confidence" = some (.number (.finite q)) → 1 < q →
      classifyImage env imageBase64 getAuthHeaders =
        .ok (jsOr (plainObjectGet fields "department") Manual)) ∧
    (∀ q : ℚ, fields.lookup "confidence" = some (.number (.finite q)) → q < 0 →
      classifyImage env imageBase64 getAuthHeaders = .ok Manual) := by
  have hcl := classifyImage_of_object env imageBase64 getAuthHeaders r fields h hok hjson
  refine ⟨?_, ?_, ?_⟩
  · intro hmiss
    rw [hcl, plainObjectGet_confidence_missing fields hmiss]
    simp [toNumber, JSNumber.lt]
  · intro q hq h1
    rw [hcl, plainObjectGet_of_lookup fields _ _ hq]
    have : ¬ q < 5404319552844595 / 18014398509481984 := by
      have : (5404319552844595 / 18014398509481984 : ℚ) < 1 := by norm_num
      linarith
    simp [toNumber, JSNumber.lt, REMOTE_CONFIDENCE_THRESHOLD, this]
  · intro q hq h0
    rw [hcl, plainObjectGet_of_lookup fields _ _ hq]
    have : q < 5404319552844595 / 18014398509481984 := by
      have : (0 : ℚ) < 5404319552844595 / 18014398509481984 := by norm_num
      linarith
    simp [toNumber, JSNumber.lt, REMOTE_CONFIDENCE_THRESHOLD, this]

/-- Witness for the amended C7 at the response `department: "Traffic Department",
confidence: 1.5`. -/
theorem classifyImage_unvalidated_confidence_witness :
    classifyImage (serverAnswering (okResponse overconfidentBody)) "aGVsbG8=" none =
      .ok (jsOr (.string "Traffic Department") Manual) :=
  (classifyImage_unvalidated_confidence (serverAnswering (okResponse overconfidentBody))
    "aGVsbG8=" none (okResponse overconfidentBody) _ rfl rfl rfl).2.1 (3 / 2) rfl (by norm_num)

/-! ## The local classifier -/

theorem classifyImageML_of_outputs (env : LocalEnv) (st : ModuleState) (imageFile : ImageFile)
    (xs : List JSNumber) (h : LocalOutputs env st imageFile xs) :
    (classifyImageML env st imageFile).1 = .ok (decideLocal xs) := by
  obtain ⟨st1, m, t, pr, h1, hm, ht, hp, hd⟩ := h
  simp [classifyImageML, h1, classifyAfterLoad, hm, ht, hp, hd, bind, Except.bind, pure,
    Except.pure]

theorem max2_finite (a b : ℚ) :
    JSNumber.max2 (.finite a) (.finite b) = .finite (max a b) := by
  simp only [JSNumber.max2, JSNumber.lt]
  by_cases h : a < b
  · simp [h, max_eq_right (le_of_lt h)]
  · simp [h, max_eq_left (not_lt.mp h)]

theorem foldl_max2_finite (p : List ℚ) (m : ℚ) :
    (p.map JSNumber.finite).foldl JSNumber.max2 (.finite m) = .finite (p.foldl max m) := by
  induction p generalizing m with
  | nil => rfl
  | cons a l ih => simp only [List.map_cons, List.foldl_cons, max2_finite, ih]

theorem foldl_max_eq (p : List ℚ) (m v : ℚ) (hm : m ≤ v) (hall : ∀ x ∈ p, x ≤ v)
    (hex : m = v ∨ v ∈ p) : p.foldl max m = v := by
  induction p generalizing m with
  | nil =>
    rcases hex with h | h
    · simpa using h
    · simp at h
  | cons a l ih =>
    simp only [List.foldl_cons]
    have ha : a ≤ v := hall a (List.mem_cons_self a l)
    apply ih (max m a) (max_le hm ha) (fun x hx => hall x (List.mem_cons_of_mem a hx))
    rcases hex with h | h
    · left; rw [h]; exact max_eq_left ha
    · rcases List.mem_cons.mp h with h | h
      · left; rw [← h]; exact max_eq_right (h ▸ hm)
      · right; exact h

theorem mathMax_finite (p : List ℚ) (i : Nat) (hi : i < p.length)
    (hmax : ∀ (j : Nat) (hj : j < p.length), p[j] ≤ p[i]) :
    mathMax (p.map JSNumber.finite) = .finite p[i] := by
  cases p with
  | nil => simp at hi
  | cons a l =>
    have hstart : JSNumber.max2 .negInf (.finite a) = .finite a := by
      simp [JSNumber.max2, JSNumber.lt]
    simp only [mathMax, List.map_cons, List.foldl_cons, hstart, foldl_max2_finite]
    congr 1
    apply foldl_max_eq
    · exact hmax 0 (by simp)
    · intro x hx
      obtain ⟨n, hn, rfl⟩ := List.getElem_of_mem hx
      exact hmax (n + 1) (by simpa using hn)
    · cases i with
      | zero => left; rfl
      | succ k =>
        right
        simp only [List.getElem_cons_succ]
        exact List.getElem_mem _

theorem indexOfFrom_first (p : List ℚ) (v : ℚ) (i k : Nat) (hi : i < p.length)
    (hv : p[i] = v) (hfirst : ∀ (j : Nat) (hj : j < p.length), j < i → p[j] ≠ v) :
    indexOfFrom (.finite v) (p.map JSNumber.finite) k = ((k + i : Nat) : Int) := by
  induction p generalizing i k with
  | nil => simp at hi
  | cons a l ih =>
    cases i with
    | zero =>
      simp only [List.getElem_cons_zero] at hv
      simp [indexOfFrom, JSNumber.strictEq, hv]
    | succ n =>
      have ha : a ≠ v := hfirst 0 (by simp) (Nat.succ_pos n)
      simp only [List.getElem_cons_succ] at hv
      have hn : n < l.length := by simpa using hi
      have := ih n (k + 1) hn hv (fun j hj hjn => by
        have := hfirst (j + 1) (by simpa using hj) (Nat.succ_lt_succ hjn)
        simpa using this)
      simp only [List.map_cons, indexOfFrom, JSNumber.strictEq, ha, decide_False]
      rw [if_neg (by simp), this]
      congr 1
      omega

theorem decideLocal_finite (p : List ℚ) (i : Nat) (hi : i < p.length)
    (hmax : ∀ (j : Nat) (hj : j < p.length), p[j] ≤ p[i])
    (hfirst : ∀ (j : Nat) (hj : j < p.length), j < i → p[j] < p[i]) :
    decideLocal (p.map JSNumber.finite) =
      if 1 / 2 ≤ p[i] then departmentAt (i : Int) else Manual := by
  have hidx : indexOf (p.map JSNumber.finite) (mathMax (p.map JSNumber.finite)) = (i : Int) := by
    rw [mathMax_finite p i hi hmax, indexOf,
      indexOfFrom_first p p[i] i 0 hi rfl (fun j hj hji => ne_of_lt (hfirst j hj hji))]
    simp
  simp only [decideLocal, hidx, typedArrayGet]
  have hneg : ¬ ((i : Int) < 0) := by omega
  simp only [hneg, if_false, Int.toNat_ofNat, List.getElem?_map, List.getElem?_eq_getElem hi,
    Option.map_some', JSNumber.ge, LOCAL_CONFIDENCE_THRESHOLD, JSNumber.lt]
  by_cases h : 1 / 2 ≤ p[i]
  · simp [h, not_lt.mpr h]
  · simp [h, not_le.mp h]

theorem departmentAt_of_lt (i : Nat) (hi : i < 5) :
    departmentAt (i : Int) = .string DEPARTMENTS[i] := by
  have hneg : ¬ ((i : Int) < 0) := by omega
  have hl : i < DEPARTMENTS.length := hi
  have hd : DEPARTMENTS[i]? = some DEPARTMENTS[i] := List.getElem?_eq_getElem hl
  simp [departmentAt, hneg, hd]

/-- C3.  Local decision: when the model's output for the image is a vector `p`
of five numbers whose maximum is first attained at index `i`, `classifyImageML`
returns `DEPARTMENTS[i]` if `p[i] >= 0.5` and `"Manual"` otherwise.  The
decision is a function of `p` alone, so equal vectors give equal decisions. -/
theorem classifyImageML_local_decision (env : LocalEnv) (st : ModuleState)
    (imageFile : ImageFile) (p : List ℚ) (i : Nat)
    (hout : LocalOutputs env st imageFile (p.map JSNumber.finite))
    (hlen : p.length = 5) (hi : i < 5)
    (hmax : ∀ (j : Nat) (hj : j < 5), p[j] ≤ p[i])
    (hfirst : ∀ (j : Nat) (hj : j < 5), j < i → p[j] < p[i]) :
    (classifyImageML env st imageFile).1 =
      .ok (if 1 / 2 ≤ p[i] then .string DEPARTMENTS[i] else Manual) := by
  have hi1 : i < p.length := by omega
  rw [classifyImageML_of_outputs env st imageFile _ hout,
    decideLocal_finite p i hi1 (fun j hj => hmax j (hlen ▸ hj))
      (fun j hj hji => hfirst j (hlen ▸ hj) hji),
    departmentAt_of_lt i hi]

/-- Witness for C3: a maximum of 0.44 on "Sanitation Department" yields `"Manual"`. -/
theorem classifyImageML_local_decision_witness :
    (classifyImageML (localEnvWithOutput (sanitationOutput.map JSNumber.finite)) freshState
      sampleFile).1 = .ok Manual := by
  have h := classifyImageML_local_decision
    (localEnvWithOutput (sanitationOutput.map JSNumber.finite)) freshState sampleFile
    sanitationOutput 3
    ⟨⟨some ⟨1⟩, 1⟩, ⟨1⟩, ⟨1⟩, ⟨2⟩, rfl, rfl, rfl, rfl, rfl⟩ rfl (by decide)
    (by
      intro j hj
      interval_cases j <;> simp [sanitationOutput] <;> norm_num)
    (by
      intro j hj hj3
      interval_cases j <;> simp [sanitationOutput] <;> norm_num)
  rw [h]
  simp [sanitationOutput]
  norm_num

/-- C4.  Failures of the local strategy are absorbed: when loading the model or
the prediction step throws, `classifyImageML` is fulfilled with exactly
`"Manual"`; it is not rejected. -/
theorem classifyImageML_absorbs_failures (env : LocalEnv) (st : ModuleState)
    (imageFile : ImageFile) (h : LocalFailed env st imageFile) :
    (classifyImageML env st imageFile).1 = .ok Manual := by
  cases h with
  | loadThrows e h =>
    have hl : loadModel env.loadLayersModel st =
        (.error e, (loadModel env.loadLayersModel st).2) := by
      rw [← h]
    cases hnone : st.model with
    | some m => simp [loadModel, hnone] at h
    | none =>
      simp only [classifyImageML, ensureModel, hnone]
      rw [hl]
  | predictThrows st1 m t e h1 hm ht hp =>
    simp [classifyImageML, h1, classifyAfterLoad, hm, ht, hp, bind, Except.bind]
  | dataThrows st1 m t pr e h1 hm ht hp hd =>
    simp [classifyImageML, h1, classifyAfterLoad, hm, ht, hp, hd, bind, Except.bind]

/-- Witness for C4: the model file cannot be fetched, and the result is `"Manual"`. -/
theorem classifyImageML_absorbs_failures_witness :
    (classifyImageML localEnvNoModel freshState sampleFile).1 = .ok Manual :=
  classifyImageML_absorbs_failures localEnvNoModel freshState sampleFile
    (.loadThrows ⟨"Request to model.json failed"⟩ rfl)

/-- Counterexample to C8: for a file whose bytes do not decode, `preprocessImage`
rejects, and `classifyImageML` is fulfilled with `"Manual"`: the decode error
does not reach the caller. -/
theorem classifyImageML_swallows_decode_error :
    preprocessImage localEnvUndecodable sampleFile = .error ⟨"error event"⟩ ∧
    (classifyImageML localEnvUndecodable freshState sampleFile).1 = .ok Manual ∧
    (classifyImageML localEnvUndecodable freshState sampleFile).1 ≠ .error ⟨"error event"⟩ := by
  refine ⟨rfl, rfl, ?_⟩
  have h : (classifyImageML localEnvUndecodable freshState sampleFile).1 = .ok Manual := rfl
  rw [h]
  simp

/-- C8, amended.  An undecodable image is absorbed like every other failure:
whenever `preprocessImage` rejects, `classifyImageML` is fulfilled with
`"Manual"` and does not reject. -/
theorem classifyImageML_decode_error_gives_manual (env : LocalEnv) (st : ModuleState)
    (imageFile : ImageFile) (e : Thrown) (h : preprocessImage env imageFile = .error e) :
    (classifyImageML env st imageFile).1 = .ok Manual := by
  simp only [classifyImageML]
  rcases hm : ensureModel env st with ⟨res, st1⟩
  cases res with
  | error e1 => rfl
  | ok u => simp [classifyAfterLoad, h, bind, Except.bind]

/-- Witness for the amended C8 at a file whose bytes do not decode. -/
theorem classifyImageML_decode_error_gives_manual_witness :
    (classifyImageML localEnvUndecodable freshState sampleFile).1 = .ok Manual :=
  classifyImageML_decode_error_gives_manual localEnvUndecodable freshState sampleFile
    ⟨"error event"⟩ rfl

/-! ## Remote failure and the local classifier -/

/-- Counterexample to C5: the server is unreachable and the local model is
confident (0.9 on "Traffic Department"); the local classifier decides
`"Traffic Department"`, while `classifyImage` returns `"Manual"`. -/
theorem classifyImage_no_local_fallback :
    RemoteFailed serverUnreachable "aGVsbG8=" none ∧
    classifyImage serverUnreachable "aGVsbG8=" none = .ok Manual ∧
    (classifyImageML (localEnvWithOutput (trafficOutput.map JSNumber.finite)) freshState
      sampleFile).1 = .ok (.string "Traffic Department") ∧
    classifyImage serverUnreachable "aGVsbG8=" none ≠
      (classifyImageML (localEnvWithOutput (trafficOutput.map JSNumber.finite)) freshState
        sampleFile).1 := by
  have hlocal : (classifyImageML (localEnvWithOutput (trafficOutput.map JSNumber.finite))
      freshState sampleFile).1 = .ok (.string "Traffic Department") := by
    rw [classifyImageML_of_outputs (localEnvWithOutput (trafficOutput.map JSNumber.finite))
      freshState sampleFile (trafficOutput.map JSNumber.finite)
      ⟨⟨some ⟨1⟩, 1⟩, ⟨1⟩, ⟨1⟩, ⟨2⟩, rfl, rfl, rfl, rfl, rfl⟩]
    have h4 : (4 : Nat) < trafficOutput.length := by decide
    rw [decideLocal_finite trafficOutput 4 h4
      (by
        intro j hj
        have hj5 : j < 5 := hj
        interval_cases j <;> simp [trafficOutput] <;> norm_num)
      (by
        intro j hj hj4
        interval_cases j <;> simp [trafficOutput] <;> norm_num)]
    have hd : departmentAt ((4 : Nat) : Int) = .string "Traffic Department" := rfl
    rw [hd]
    simp [trafficOutput]
    norm_num
  have hremote : classifyImage serverUnreachable "aGVsbG8=" none = .ok Manual := rfl
  refine ⟨.fetchThrows networkError rfl, hremote, hlocal, ?_⟩
  rw [hremote, hlocal]
  simp [Manual]

/-- C5, amended.  There is no fallback from the remote to the local classifier:
whenever the remote classification is unreachable or errors, `classifyImage`
returns `"Manual"` whatever the local classifier would decide, so the two
agree exactly when the local decision is `"Manual"` as well. -/
theorem classifyImage_remote_failure_ignores_local (env : RemoteEnv) (imageBase64 : String)
    (getAuthHeaders : Option (Except Thrown Headers))
    (h : RemoteFailed env imageBase64 getAuthHeaders)
    (localEnv : LocalEnv) (st : ModuleState) (imageFile : ImageFile) :
    classifyImage env imageBase64 getAuthHeaders = .ok Manual ∧
    (classifyImage env imageBase64 getAuthHeaders = (classifyImageML localEnv st imageFile).1 ↔
      (classifyImageML localEnv st imageFile).1 = .ok Manual) := by
  have hm := classifyImage_of_remoteFailed env imageBase64 getAuthHeaders h
  refine ⟨hm, ?_⟩
  rw [hm]
  exact eq_comm

/-- Witness for the amended C5: an unreachable server and a local model whose
maximum is 0.44. -/
theorem classifyImage_remote_failure_ignores_local_witness :
    classifyImage serverUnreachable "aGVsbG8=" none = .ok Manual :=
  (classifyImage_remote_failure_ignores_local serverUnreachable "aGVsbG8=" none
    (.fetchThrows networkError rfl)
    (localEnvWithOutput (sanitationOutput.map JSNumber.finite)) freshState sampleFile).1

/-! ## The display names -/

theorem getDepartmentDisplayName_of_unknown (s : String)
    (hown : departmentMap.lookup s = none) (hproto : objectPrototype.lookup s = none) :
    getDepartmentDisplayName s = .string s := by
  simp [getDepartmentDisplayName, plainObjectGet, hown, hproto, jsOr, truthy]

theorem getDepartmentDisplayName_of_known :
    getDepartmentDisplayName "Public Works Department" = .string "Public Works Department (PWD)" ∧
    getDepartmentDisplayName "Water Board Department" = .string "Water Board" ∧
    getDepartmentDisplayName "Sewage and Drainage Department" = .string "Sewage & Drainage" ∧
    getDepartmentDisplayName "Sanitation Department" = .string "Sanitation" ∧
    getDepartmentDisplayName "Traffic Department" = .string "Traffic" ∧
    getDepartmentDisplayName "Manual" = .string "Manual Classification" ∧
    getDepartmentDisplayName "" = .string "" :=
  ⟨rfl, rfl, rfl, rfl, rfl, rfl, rfl⟩

/-- C9, at the failing inputs: for the names `"constructor"` and `"toString"`,
which a plain object inherits from `Object.prototype`, `getDepartmentDisplayName`
returns the inherited built in function, not the input string. -/
theorem getDepartmentDisplayName_inherited_name :
    getDepartmentDisplayName "constructor" = .builtin "Object" ∧
    getDepartmentDisplayName "toString" = .builtin "Object.prototype.toString" ∧
    getDepartmentDisplayName "constructor" ≠ .string "constructor" ∧
    getDepartmentDisplayName "toString" ≠ .string "toString" := by
  have h1 : getDepartmentDisplayName "constructor" = .builtin "Object" := rfl
  have h2 : getDepartmentDisplayName "toString" = .builtin "Object.prototype.toString" := rfl
  refine ⟨h1, h2, ?_, ?_⟩
  · rw [h1]; simp
  · rw [h2]; simp

/-! ## The model handle -/

theorem loadModel_of_loaded (load : String → Except Thrown ModelHandle) (st : ModuleState)
    (m : ModelHandle) (h : st.model = some m) : loadModel load st = (.ok m, st) := by
  simp [loadModel, h]

theorem loadModel_success_sets (load : String → Except Thrown ModelHandle) (st st1 : ModuleState)
    (m : ModelHandle) (h : loadModel load st = (.ok m, st1)) : st1.model = some m := by
  unfold loadModel at h
  cases hm : st.model with
  | some m0 =>
    simp only [hm, Prod.mk.injEq, Except.ok.injEq] at h
    rw [← h.2, hm, h.1]
  | none =>
    cases hl : load MODEL_URL with
    | ok m1 =>
      simp only [hm, hl, Prod.mk.injEq, Except.ok.injEq] at h
      rw [← h.2, h.1]
    | error e => simp [hm, hl] at h

theorem classifyImageML_state_of_loaded (env : LocalEnv) (st : ModuleState)
    (imageFile : ImageFile) (m : ModelHandle) (h : st.model = some m) :
    (classifyImageML env st imageFile).2 = st := by
  simp only [classifyImageML, ensureModel, h]
  cases classifyAfterLoad env st imageFile <;> rfl

/-- A call of `loadModel` that no other call overlaps, run as a `call` followed
by the settling of its underlying load, is the function `loadModel`. -/
theorem runLoader_single_call (load : String → Except Thrown ModelHandle) (st : ModuleState) :
    runLoader [.call, .settle (load MODEL_URL)] ⟨st.model, st.loadCalls, 0, []⟩ =
      ⟨(loadModel load st).2.model, (loadModel load st).2.loadCalls, 0,
        [(loadModel load st).1]⟩ := by
  cases hm : st.model with
  | some m => simp [runLoader, stepLoader, loadModel, hm]
  | none => cases hl : load MODEL_URL <;> simp [runLoader, stepLoader, loadModel, hm, hl]

theorem runLoader_cons (ev : LoaderEvent) (events : List LoaderEvent) (st : LoaderState) :
    runLoader (ev :: events) st = runLoader events (stepLoader st ev) := rfl

theorem runLoader_keeps_loaded (events : List LoaderEvent) (st : LoaderState)
    (hset : st.model.isSome = true) (hno : ∀ ev ∈ events, ev.isUnload = false) :
    (runLoader events st).model.isSome = true ∧
      (runLoader events st).loadCalls = st.loadCalls := by
  induction events generalizing st with
  | nil => exact ⟨hset, rfl⟩
  | cons ev rest ih =>
    rw [runLoader_cons]
    have hrest : ∀ ev1 ∈ rest, ev1.isUnload = false :=
      fun ev1 h1 => hno ev1 (List.mem_cons_of_mem ev h1)
    have hev : ev.isUnload = false := hno ev (List.mem_cons_self ev rest)
    obtain ⟨m, hm⟩ := Option.isSome_iff_exists.mp hset
    have hstep : (stepLoader st ev).model.isSome = true ∧
        (stepLoader st ev).loadCalls = st.loadCalls := by
      cases ev with
      | call => simp [stepLoader, hm]
      | settle outcome =>
        by_cases h0 : st.inFlight = 0
        · simp [stepLoader, h0, hm]
        · cases outcome <;> simp [stepLoader, h0, hm]
      | unload => simp [LoaderEvent.isUnload] at hev
    obtain ⟨h1, h2⟩ := ih (stepLoader st ev) hstep.1 hrest
    exact ⟨h1, h2.trans hstep.2⟩

theorem runLoader_without_overlap (events : List LoaderEvent) (st : LoaderState)
    (m : ModelHandle) (hset : st.model = some m) (hidle : st.inFlight = 0)
    (hno : ∀ ev ∈ events, ev.isUnload = false) :
    runLoader events st =
      ⟨some m, st.loadCalls, 0,
        st.results ++ List.replicate (events.countP LoaderEvent.isCall) (.ok m)⟩ := by
  induction events generalizing st with
  | nil =>
    cases st
    simp only at hset hidle
    simp [runLoader, hset, hidle]
  | cons ev rest ih =>
    rw [runLoader_cons]
    have hrest : ∀ ev1 ∈ rest, ev1.isUnload = false :=
      fun ev1 h1 => hno ev1 (List.mem_cons_of_mem ev h1)
    have hev : ev.isUnload = false := hno ev (List.mem_cons_self ev rest)
    cases ev with
    | call =>
      have hstep : stepLoader st .call =
          ⟨some m, st.loadCalls, st.inFlight, st.results ++ [.ok m]⟩ := by
        simp [stepLoader, hset]
      have hnext := ih (LoaderState.mk (some m) st.loadCalls st.inFlight
        (st.results ++ [Except.ok m])) rfl hidle hrest
      rw [hstep, hnext]
      simp [LoaderEvent.isCall, List.replicate_succ]
    | settle outcome =>
      have hstep : stepLoader st (.settle outcome) = st := by
        simp [stepLoader, hidle]
      rw [hstep, ih st hset hidle hrest]
      simp [LoaderEvent.isCall]
    | unload => simp [LoaderEvent.isUnload] at hev

/-- Counterexample to C10: two calls of `loadModel` overlap, the underlying
load of the first succeeds with handle 7 and that of the second with handle 8.
The first call has then succeeded with handle 7, no `unloadModel` follows, and
the call made afterwards returns handle 8; two underlying loads were made. -/
theorem loadModel_overlap_replaces_handle :
    runLoader [.call, .call, .settle (.ok ⟨7⟩), .settle (.ok ⟨8⟩), .call] freshLoader =
      ⟨some ⟨8⟩, 2, 0, [.ok ⟨7⟩, .ok ⟨8⟩, .ok ⟨8⟩]⟩ ∧
    (runLoader [.call, .call, .settle (.ok ⟨7⟩)] freshLoader).results = [.ok ⟨7⟩] ∧
    (⟨7⟩ : ModelHandle) ≠ ⟨8⟩ := by
  refine ⟨rfl, rfl, by decide⟩

/-- C10, amended.  `loadModel` is idempotent over the module's handle as long as
calls do not overlap.

* From a state in which the handle is set to `m` and no call is suspended in an
  underlying load (the state after a call that nothing overlaps has succeeded),
  every run without `unloadModel` keeps the handle `m`, makes no underlying
  load, and every call of `loadModel` in it returns `m`.
* Whether calls overlap or not, once the handle is set a run without
  `unloadModel` makes no further underlying load and the handle stays set.
* A suspended call whose underlying load fails is rejected with that error and
  leaves `model` as it was; with nothing overlapping, a call whose underlying
  load fails leaves the handle unset and the next call makes the underlying
  load again. -/
theorem loadModel_idempotent_without_overlap (st : LoaderState) :
    (∀ (m : ModelHandle) (events : List LoaderEvent),
      st.model = some m → st.inFlight = 0 → (∀ ev ∈ events, ev.isUnload = false) →
      runLoader events st =
        ⟨some m, st.loadCalls, 0,
          st.results ++ List.replicate (events.countP LoaderEvent.isCall) (.ok m)⟩) ∧
    (∀ events : List LoaderEvent,
      st.model.isSome = true → (∀ ev ∈ events, ev.isUnload = false) →
      (runLoader events st).model.isSome = true ∧
        (runLoader events st).loadCalls = st.loadCalls) ∧
    (∀ e : Thrown, st.inFlight ≠ 0 →
      stepLoader st (.settle (.error e)) =
        ⟨st.model, st.loadCalls, st.inFlight - 1, st.results ++ [.error e]⟩) ∧
    (∀ (e : Thrown) (outcome : Except Thrown ModelHandle),
      st.model = none → st.inFlight = 0 →
      runLoader [.call, .settle (.error e)] st =
          ⟨none, st.loadCalls + 1, 0, st.results ++ [.error e]⟩ ∧
        runLoader [.call, .settle (.error e), .call, .settle outcome] st =
          ⟨outcome.toOption, st.loadCalls + 2, 0, st.results ++ [.error e, outcome]⟩) := by
  refine ⟨?_, ?_, ?_, ?_⟩
  · intro m events hset hidle hno
    exact runLoader_without_overlap events st m hset hidle hno
  · intro events hset hno
    exact runLoader_keeps_loaded events st hset hno
  · intro e hbusy
    simp [stepLoader, hbusy]
  · intro e outcome hnone hidle
    cases outcome <;>
      simp [runLoader, stepLoader, hnone, hidle, Except.toOption]

/-- Instance of the amended C10: after a first call that nothing overlaps has
succeeded with handle 7, two more calls return handle 7 and the count of
underlying loads stays at one; and after a first call whose load failed, the
next call loads again and gets handle 8. -/
theorem loadModel_idempotent_without_overlap_witness :
    runLoader [.call, .settle (.error networkError), .call] ⟨some ⟨7⟩, 1, 0, [.ok ⟨7⟩]⟩ =
      ⟨some ⟨7⟩, 1, 0, [.ok ⟨7⟩, .ok ⟨7⟩, .ok ⟨7⟩]⟩ ∧
    runLoader [.call, .settle (.error networkError), .call, .settle (.ok ⟨8⟩)] freshLoader =
      ⟨some ⟨8⟩, 2, 0, [.error networkError, .ok ⟨8⟩]⟩ :=
  ⟨(loadModel_idempotent_without_overlap ⟨some ⟨7⟩, 1, 0, [.ok ⟨7⟩]⟩).1 ⟨7⟩
      [.call, .settle (.error networkError), .call] rfl rfl (by simp [LoaderEvent.isUnload]),
   ((loadModel_idempotent_without_overlap freshLoader).2.2.2 networkError (.ok ⟨8⟩)
      rfl rfl).2⟩

end NagrikMitra
